import Mathlib

/-!
Verification of the crosswords statistics engine
(`app/services/statistics_service.py`) against its specification.

The Python service is shallowly embedded here.  Real-valued quantities
(scores, rates, quantiles) are modelled as exact rationals `ℚ`, timestamps
as integers counting seconds since the Unix epoch, and calendar dates as
integers counting days since the epoch (so `datetime.fromisoformat d`
becomes `d * 86400`).  Pandas / numpy library calls are embedded by their
documented exact-arithmetic semantics: `Series.quantile` is the R-7
linear-interpolation quantile, `Series.std` is the sample (ddof = 1)
standard deviation returning NaN for fewer than two values (modelled with
`Option`), `np.histogram` is equal-width binning over `[min, max]`
(widened to `[min - 1/2, max + 1/2]` when `min = max`) with a closed last
bin.  Fallible operations return `Except`.
-/

namespace Crosswords

/-- A user row; only `id` (join key) and `pseudo` (display name) are read
by the statistics service. -/
structure User where
  id : Nat
  pseudo : String
deriving DecidableEq, Inhabited

/-- A grid row, as read by the statistics service: identifier, version
label and the (nullable) published timestamp. -/
structure Grid where
  id : Nat
  version : String
  published_at : Option ℤ
deriving DecidableEq, Inhabited

/-- A submission row.  Scores are exact rationals standing for the SQL
floats; `completion_time_seconds` and `submitted_at` are integers
(seconds). -/
structure Submission where
  id : Nat
  user_id : Nat
  grid_id : Nat
  correct_cells : Nat
  base_score : ℚ
  time_bonus : ℚ
  joker_penalty : ℚ
  final_score : ℚ
  completion_time_seconds : ℤ
  words_found : Nat
  total_words : Nat
  joker_used : Bool
  submitted_at : ℤ
deriving DecidableEq, Inhabited

/-- The read-only database snapshot the service queries.  List order is the
deterministic fetch order of the repository. -/
structure DB where
  users : List User
  grids : List Grid
  submissions : List Submission
deriving DecidableEq, Inhabited

/-- Errors surfaced by the service: `notFound` embeds the
`ValueError("Grid ... not found")` raised for an unknown grid id, and
`valueError` any other library exception (e.g. `np.histogram` with zero
bins). -/
inductive StatsError where
  | notFound (gid : Nat)
  | valueError
deriving DecidableEq, Inhabited

/-! ### Numeric helpers -/

/-- Minimum of a rational list (`Series.min`); 0 on the empty list, which
the service never queries. -/
def qMin : List ℚ → ℚ
  | [] => 0
  | x :: xs => xs.foldl min x

/-- Maximum of a rational list (`Series.max`). -/
def qMax : List ℚ → ℚ
  | [] => 0
  | x :: xs => xs.foldl max x

/-- Minimum of an integer list. -/
def zMin : List ℤ → ℤ
  | [] => 0
  | x :: xs => xs.foldl min x

/-- Maximum of an integer list. -/
def zMax : List ℤ → ℤ
  | [] => 0
  | x :: xs => xs.foldl max x

/-- Arithmetic mean (`Series.mean`); division by zero yields 0 in `ℚ`, a
case the service never reaches on nonempty data. -/
def qMean (l : List ℚ) : ℚ := l.sum / l.length

/-- Python `int(...)` applied to a float: truncation toward zero. -/
def pyInt (x : ℚ) : ℤ := if 0 ≤ x then ⌊x⌋ else ⌈x⌉

/-- Python `round` ties-to-even rounding to an integer. -/
def roundHalfEven (x : ℚ) : ℤ :=
  if x - ⌊x⌋ < 1/2 then ⌊x⌋
  else if 1/2 < x - ⌊x⌋ then ⌊x⌋ + 1
  else if ⌊x⌋ % 2 = 0 then ⌊x⌋ else ⌊x⌋ + 1

/-- Python `round(x, 2)`. -/
def round2 (x : ℚ) : ℚ := (roundHalfEven (x * 100) : ℚ) / 100

/-- Python `round(x, 1)`. -/
def round1 (x : ℚ) : ℚ := (roundHalfEven (x * 10) : ℚ) / 10

/-- Ascending sort of a rational list. -/
def sortQ (l : List ℚ) : List ℚ := l.insertionSort (fun a b => a ≤ b)

/-- Linear interpolation at position `h` into the sorted value list `s`:
value `s[⌊h⌋] + (h - ⌊h⌋) * (s[⌈h⌉] - s[⌊h⌋])`. -/
def interp (s : List ℚ) (h : ℚ) : ℚ :=
  s.getD (⌊h⌋).toNat 0 + (h - ⌊h⌋) * (s.getD (⌈h⌉).toNat 0 - s.getD (⌊h⌋).toNat 0)

/-- Pandas `Series.quantile(q)` with the default linear interpolation
(method R-7): interpolate at index `q * (n - 1)` into the sorted values. -/
def quantileR7 (l : List ℚ) (q : ℚ) : ℚ :=
  interp (sortQ l) (q * ((l.length : ℚ) - 1))

/-- Pandas `Series.std()` (sample variance, ddof = 1), kept squared so the
value stays rational; `none` models the NaN produced for fewer than two
values.  The reported standard deviation is the square root of this. -/
def pandasVar (l : List ℚ) : Option ℚ :=
  if l.length < 2 then none
  else some ((l.map (fun x => (x - qMean l) ^ 2)).sum / ((l.length : ℚ) - 1))

/-- First-occurrence deduplication, as `pandas.unique`. -/
def uniqueFirst {α : Type} [DecidableEq α] : List α → List α
  | [] => []
  | x :: xs => x :: uniqueFirst (xs.filter (fun y => y ≠ x))
termination_by l => l.length
decreasing_by
  exact Nat.lt_succ_of_le (List.length_filter_le _ _)

/-! ### Grid-number extraction (`extract_grid_number`) -/

/-- Digits of a decimal literal folded into a natural number. -/
def digitsToNat (cs : List Char) : Nat :=
  cs.foldl (fun acc c => acc * 10 + (c.toNat - 48)) 0

/-- Scan for the regex `-grid-(\d+)` as `re.search` does: at each position
try to match the literal `-grid-` followed by a maximal nonempty digit run;
on failure resume the scan one character later. -/
def extractFrom : List Char → Option Nat
  | [] => none
  | '-' :: 'g' :: 'r' :: 'i' :: 'd' :: '-' :: rest =>
    match rest.takeWhile Char.isDigit with
    | [] => extractFrom ('g' :: 'r' :: 'i' :: 'd' :: '-' :: rest)
    | d :: ds => some (digitsToNat (d :: ds))
  | _ :: rest => extractFrom rest

/-- Embedding of `extract_grid_number`: the grid number parsed out of a
version string such as `1-grid-13.0`, or `none`. -/
def extract_grid_number (version : String) : Option Nat :=
  if version = "" then none else extractFrom version.toList

/-! ### Grid statistics report (`calculate_grid_stats`) -/

/-- The nine score percentiles of the grid report. -/
structure ScorePercentiles where
  p1 : ℚ
  p5 : ℚ
  p10 : ℚ
  p25 : ℚ
  p50 : ℚ
  p75 : ℚ
  p90 : ℚ
  p95 : ℚ
  p99 : ℚ
deriving DecidableEq, Inhabited

/-- The `scores` block of the grid report.  `std_sq` carries the square of
the reported standard deviation (the source reports
`sqrt std_sq`, with 0 substituted for NaN); the square is kept so the
field stays rational. -/
structure ScoresStats where
  min : ℚ
  max : ℚ
  mean : ℚ
  median : ℚ
  std_sq : ℚ
  percentiles : ScorePercentiles
deriving DecidableEq, Inhabited

/-- The `timing` block of the grid report; percentiles pass through
`int(...)`. -/
structure TimingStats where
  min : ℤ
  max : ℤ
  mean : ℚ
  median : ℚ
  p25 : ℤ
  p50 : ℤ
  p75 : ℤ
deriving DecidableEq, Inhabited

/-- The `jokerUsage` block of the grid report. -/
structure JokerUsage where
  totalUsed : Nat
  usageRate : ℚ
  averageScoreWithJoker : Option ℚ
  averageScoreWithoutJoker : Option ℚ
deriving DecidableEq, Inhabited

/-- The `wordsStats` block of the grid report; `distribution` lists each
observed `words_found` value with its submission count
(`Series.value_counts`). -/
structure WordsStats where
  averageFound : ℚ
  medianFound : ℚ
  totalWords : Nat
  distribution : List (Nat × Nat)
deriving DecidableEq, Inhabited

/-- The grid statistics report.  The empty-grid branch populates only the
identity fields, the zero counts and `message`; the block fields are
`none` there. -/
structure GridStatsReport where
  gridId : Nat
  gridNumber : Option Nat
  gridVersion : String
  totalPlayers : Nat
  totalSubmissions : Nat
  message : Option String
  completionRate : Option ℚ
  scores : Option ScoresStats
  timing : Option TimingStats
  jokerUsage : Option JokerUsage
  wordsStats : Option WordsStats
deriving DecidableEq, Inhabited

/-- Lookup of a grid by id (`db.query(Grid).filter(Grid.id == gid).first()`). -/
def findGrid (db : DB) (gid : Nat) : Option Grid :=
  db.grids.find? (fun g => g.id == gid)

/-- The submission rows of a grid inner-joined with the submitting user's
pseudo, in repository fetch order. -/
def gridRows (db : DB) (gid : Nat) : List (Submission × String) :=
  (db.submissions.filter (fun s => s.grid_id == gid)).filterMap
    (fun s => (db.users.find? (fun u => u.id == s.user_id)).map (fun u => (s, u.pseudo)))

/-- Descending-count order used by `Series.value_counts`. -/
def countDescLE (a b : Nat × Nat) : Prop := b.2 ≤ a.2

instance : DecidableRel countDescLE := fun a b => by
  unfold countDescLE; infer_instance

/-- Embedding of `Series.value_counts().to_dict()`: each distinct value
with its count, ordered by descending count (tie order is incidental in
the source; first occurrence is used here). -/
def valueCounts (l : List Nat) : List (Nat × Nat) :=
  ((uniqueFirst l).map (fun v => (v, l.count v))).insertionSort countDescLE

/-- The minimal report returned for an existing grid with no submissions. -/
def gridStatsEmpty (gid : Nat) (gv : String) : GridStatsReport :=
  { gridId := gid
    gridNumber := extract_grid_number gv
    gridVersion := gv
    totalPlayers := 0
    totalSubmissions := 0
    message := some "No submissions yet for this grid"
    completionRate := none
    scores := none
    timing := none
    jokerUsage := none
    wordsStats := none }

/-- The full report computed from the nonempty row list `r0 :: rrest`. -/
def gridStatsFull (gid : Nat) (gv : String) (r0 : Submission × String)
    (rrest : List (Submission × String)) : GridStatsReport :=
  let rows := r0 :: rrest
  let subs := rows.map Prod.fst
  let n := subs.length
  let completionPct := subs.map (fun s => ((s.words_found : ℚ) / (s.total_words : ℚ)) * 100)
  let completion_rate := ((completionPct.filter (fun p => p = 100)).length : ℚ) / (n : ℚ) * 100
  let scores := subs.map (fun s => s.final_score)
  let times : List ℚ := subs.map (fun s => (s.completion_time_seconds : ℚ))
  let joker_count := (subs.filter (fun s => s.joker_used)).length
  let with_joker := subs.filter (fun s => s.joker_used)
  -- faithful to source line 124, which filters on `joker_used` again
  -- rather than on its negation
  let without_joker := subs.filter (fun s => s.joker_used)
  let wordsFound : List ℚ := subs.map (fun s => (s.words_found : ℚ))
  { gridId := gid
    gridNumber := extract_grid_number gv
    gridVersion := gv
    totalPlayers := n
    totalSubmissions := n
    message := none
    completionRate := some (round2 completion_rate)
    scores := some
      { min := qMin scores
        max := qMax scores
        mean := qMean scores
        median := quantileR7 scores (1/2)
        std_sq := (pandasVar scores).getD 0
        percentiles :=
          { p1 := quantileR7 scores (1/100)
            p5 := quantileR7 scores (5/100)
            p10 := quantileR7 scores (10/100)
            p25 := quantileR7 scores (25/100)
            p50 := quantileR7 scores (50/100)
            p75 := quantileR7 scores (75/100)
            p90 := quantileR7 scores (90/100)
            p95 := quantileR7 scores (95/100)
            p99 := quantileR7 scores (99/100) } }
    timing := some
      { min := zMin (subs.map (fun s => s.completion_time_seconds))
        max := zMax (subs.map (fun s => s.completion_time_seconds))
        mean := qMean times
        median := quantileR7 times (1/2)
        p25 := pyInt (quantileR7 times (1/4))
        p50 := pyInt (quantileR7 times (1/2))
        p75 := pyInt (quantileR7 times (3/4)) }
    jokerUsage := some
      { totalUsed := joker_count
        usageRate := (joker_count : ℚ) / (n : ℚ) * 100
        averageScoreWithJoker :=
          if 0 < with_joker.length then
            some (qMean (with_joker.map (fun s => s.final_score)))
          else none
        averageScoreWithoutJoker :=
          if 0 < without_joker.length then
            some (qMean (without_joker.map (fun s => s.final_score)))
          else none }
    wordsStats := some
      { averageFound := qMean wordsFound
        medianFound := quantileR7 wordsFound (1/2)
        totalWords := r0.1.total_words
        distribution := valueCounts (subs.map (fun s => s.words_found)) } }

/-- Embedding of `calculate_grid_stats`. -/
def calculate_grid_stats (db : DB) (gid : Nat) : Except StatsError GridStatsReport :=
  match findGrid db gid with
  | none => Except.error (StatsError.notFound gid)
  | some grid =>
    match gridRows db gid with
    | [] => Except.ok (gridStatsEmpty gid grid.version)
    | r0 :: rrest => Except.ok (gridStatsFull gid grid.version r0 rrest)

/-! ### Leaderboard (`get_leaderboard`) -/

/-- One leaderboard entry after JSON formatting. -/
structure LeaderboardEntry where
  rank : Nat
  pseudo : String
  finalScore : ℚ
  completionTime : ℤ
  wordsFound : Nat
  totalWords : Nat
  isCompleted : Bool
  jokerUsed : Bool
  submittedAt : ℤ
deriving DecidableEq, Inhabited

/-- The SQL `ORDER BY final_score DESC, completion_time_seconds ASC` as a
total preorder on joined rows. -/
def lbLE (a b : Submission × String) : Prop :=
  b.1.final_score < a.1.final_score ∨
    (a.1.final_score = b.1.final_score ∧
      a.1.completion_time_seconds ≤ b.1.completion_time_seconds)

instance : DecidableRel lbLE := fun a b => by
  unfold lbLE; infer_instance

instance : IsTotal (Submission × String) lbLE := by
  constructor
  intro a b
  unfold lbLE
  rcases lt_trichotomy a.1.final_score b.1.final_score with h | h | h
  · exact Or.inr (Or.inl h)
  · rcases le_total a.1.completion_time_seconds b.1.completion_time_seconds with ht | ht
    · exact Or.inl (Or.inr ⟨h, ht⟩)
    · exact Or.inr (Or.inr ⟨h.symm, ht⟩)
  · exact Or.inl (Or.inl h)

instance : IsTrans (Submission × String) lbLE := by
  constructor
  intro a b c hab hbc
  unfold lbLE at hab hbc ⊢
  rcases hab with h1 | ⟨h1, t1⟩
  · rcases hbc with h2 | ⟨h2, t2⟩
    · exact Or.inl (lt_trans h2 h1)
    · exact Or.inl (h2 ▸ h1)
  · rcases hbc with h2 | ⟨h2, t2⟩
    · exact Or.inl (h1 ▸ h2)
    · exact Or.inr ⟨h1.trans h2, t1.trans t2⟩

/-- A formatted leaderboard entry built from a rank and a joined row. -/
def mkEntry (rank : Nat) (r : Submission × String) : LeaderboardEntry :=
  { rank := rank
    pseudo := r.2
    finalScore := r.1.final_score
    completionTime := r.1.completion_time_seconds
    wordsFound := r.1.words_found
    totalWords := r.1.total_words
    isCompleted := r.1.words_found == r.1.total_words
    jokerUsed := r.1.joker_used
    submittedAt := r.1.submitted_at }

/-- Sequential rank assignment `df["rank"] = range(1, len(df) + 1)`
starting at `rank`. -/
def addRanks (rank : Nat) : List (Submission × String) → List LeaderboardEntry
  | [] => []
  | r :: rs => mkEntry rank r :: addRanks (rank + 1) rs

/-- The claim's ordering on formatted entries: strictly greater score, or
equal score and no larger completion time. -/
def entGE (e1 e2 : LeaderboardEntry) : Prop :=
  e2.finalScore < e1.finalScore ∨
    (e1.finalScore = e2.finalScore ∧ e1.completionTime ≤ e2.completionTime)

/-- Embedding of `get_leaderboard`: rows of the grid sorted by score
descending then time ascending, truncated to `limit`, with 1-based ranks. -/
def get_leaderboard (db : DB) (gid : Nat) (limit : Nat) :
    Except StatsError (List LeaderboardEntry) :=
  match findGrid db gid with
  | none => Except.error (StatsError.notFound gid)
  | some _ =>
    let sorted := (gridRows db gid).insertionSort lbLE
    Except.ok (addRanks 1 (sorted.take limit))

/-! ### Distribution binner (`get_score_distribution`,
`get_completion_time_distribution`) -/

/-- One histogram bin of the score distribution; `stop` embeds the JSON
field `end` (a Lean keyword). -/
structure BinQ where
  start : ℚ
  stop : ℚ
  count : Nat
deriving DecidableEq, Inhabited

/-- One histogram bin of the time distribution, with `int(...)`-truncated
edges. -/
structure BinZ where
  start : ℤ
  stop : ℤ
  count : Nat
deriving DecidableEq, Inhabited

/-- The score-distribution report.  The empty branch returns the literal
`{"bins": [], "counts": []}` (hence the vestigial `counts` key) and no
min/max/mean fields. -/
structure ScoreDistribution where
  bins : List BinQ
  counts : Option (List Nat)
  min : Option ℚ
  max : Option ℚ
  mean : Option ℚ
deriving DecidableEq, Inhabited

/-- The completion-time-distribution report. -/
structure TimeDistribution where
  bins : List BinZ
  counts : Option (List Nat)
  min : Option ℤ
  max : Option ℤ
  mean : Option ℚ
  median : Option ℚ
deriving DecidableEq, Inhabited

/-- Edge `i` of the equal-width binning: `lo + i * w`. -/
def binStart (lo w : ℚ) (i : Nat) : ℚ := lo + (i : ℚ) * w

/-- Membership of a value in bin `i` of `k`: half-open `[start, stop)`
except the last bin, which is closed at `stop` (`np.histogram`). -/
def inBinB (lo w : ℚ) (k i : Nat) (v : ℚ) : Bool :=
  decide (binStart lo w i ≤ v) &&
    (if i + 1 = k then decide (v ≤ binStart lo w (i + 1))
     else decide (v < binStart lo w (i + 1)))

/-- The histogram range chosen by `np.histogram`: the observed
`[min, max]`, widened to `[min - 1/2, max + 1/2]` when all values are
equal. -/
def histLoHi (vals : List ℚ) : ℚ × ℚ :=
  if qMin vals = qMax vals then (qMin vals - 1/2, qMax vals + 1/2)
  else (qMin vals, qMax vals)

/-- Count of the input values landing in bin `i`. -/
def binCount (lo w : ℚ) (k i : Nat) (vals : List ℚ) : Nat :=
  (vals.filter (fun v => inBinB lo w k i v)).length

/-- The lower edge of the histogram range. -/
def histLo (vals : List ℚ) : ℚ := (histLoHi vals).1

/-- The upper edge of the histogram range. -/
def histHi (vals : List ℚ) : ℚ := (histLoHi vals).2

/-- The common bin width `(hi - lo) / num_bins`. -/
def histW (vals : List ℚ) (k : Nat) : ℚ := (histHi vals - histLo vals) / (k : ℚ)

/-- The final scores of a grid's submissions, in fetch order (this query
joins no user data). -/
def subScores (db : DB) (gid : Nat) : List ℚ :=
  (db.submissions.filter (fun s => s.grid_id == gid)).map (fun s => s.final_score)

/-- The completion times of a grid's submissions, in fetch order. -/
def subTimes (db : DB) (gid : Nat) : List ℚ :=
  (db.submissions.filter (fun s => s.grid_id == gid)).map
    (fun s => (s.completion_time_seconds : ℚ))

/-- The nonempty-branch score-distribution report for value list `vals`. -/
def scoreDistFull (vals : List ℚ) (num_bins : Nat) : ScoreDistribution :=
  let lo := (histLoHi vals).1
  let hi := (histLoHi vals).2
  let w := (hi - lo) / (num_bins : ℚ)
  { bins := (List.range num_bins).map
      (fun i => { start := binStart lo w i
                  stop := binStart lo w (i + 1)
                  count := binCount lo w num_bins i vals })
    counts := none
    min := some (qMin vals)
    max := some (qMax vals)
    mean := some (qMean vals) }

/-- Embedding of `get_score_distribution`. -/
def get_score_distribution (db : DB) (gid : Nat) (num_bins : Nat) :
    Except StatsError ScoreDistribution :=
  match findGrid db gid with
  | none => Except.error (StatsError.notFound gid)
  | some _ =>
    let vals := subScores db gid
    if vals = [] then
      Except.ok { bins := [], counts := some [], min := none, max := none, mean := none }
    else if num_bins = 0 then Except.error StatsError.valueError
    else Except.ok (scoreDistFull vals num_bins)

/-- The nonempty-branch time-distribution report; bin edges pass through
`int(...)`. -/
def timeDistFull (vals : List ℚ) (num_bins : Nat) : TimeDistribution :=
  let lo := (histLoHi vals).1
  let hi := (histLoHi vals).2
  let w := (hi - lo) / (num_bins : ℚ)
  { bins := (List.range num_bins).map
      (fun i => { start := pyInt (binStart lo w i)
                  stop := pyInt (binStart lo w (i + 1))
                  count := binCount lo w num_bins i vals })
    counts := none
    min := some (pyInt (qMin vals))
    max := some (pyInt (qMax vals))
    mean := some (qMean vals)
    median := some (quantileR7 vals (1/2)) }

/-- Embedding of `get_completion_time_distribution`. -/
def get_completion_time_distribution (db : DB) (gid : Nat) (num_bins : Nat) :
    Except StatsError TimeDistribution :=
  match findGrid db gid with
  | none => Except.error (StatsError.notFound gid)
  | some _ =>
    let vals := subTimes db gid
    if vals = [] then
      Except.ok { bins := [], counts := some [], min := none, max := none,
                  mean := none, median := none }
    else if num_bins = 0 then Except.error StatsError.valueError
    else Except.ok (timeDistFull vals num_bins)

/-! ### Temporal analyzer (`calculate_temporal_stats`) -/

/-- One `submissionsByDayOfWeek` record. -/
structure DayOfWeekCount where
  day : String
  dayNumber : Nat
  count : Nat
deriving DecidableEq, Inhabited

/-- One `peakHours` record. -/
structure HourCount where
  hour : ℤ
  count : Nat
deriving DecidableEq, Inhabited

/-- One `dailyTimeline` record; the date is a day index (rendered as an
ISO date string by the source). -/
structure DateCount where
  date : ℤ
  count : Nat
deriving DecidableEq, Inhabited

/-- The temporal report; the empty-grid branch populates only the identity
fields, `totalSubmissions = 0` and `message`. -/
structure TemporalReport where
  gridId : Nat
  gridNumber : Option Nat
  gridVersion : String
  totalSubmissions : Nat
  message : Option String
  firstSubmission : Option ℤ
  lastSubmission : Option ℤ
  uniqueDays : Option Nat
  averageSubmissionsPerDay : Option ℚ
  submissionsByHour : Option (List (Nat × Nat))
  submissionsByDayOfWeek : Option (List DayOfWeekCount)
  peakHours : Option (List HourCount)
  dailyTimeline : Option (List DateCount)
deriving DecidableEq, Inhabited

/-- Hour of day of a timestamp (`dt.hour`). -/
def tsHour (ts : ℤ) : ℤ := (Int.ediv ts 3600).emod 24

/-- Day of week of a timestamp (`dt.dayofweek`, Monday = 0; the epoch day
1970-01-01 was a Thursday, index 3). -/
def tsDayOfWeek (ts : ℤ) : ℤ := (Int.ediv ts 86400 + 3).emod 7

/-- Calendar date of a timestamp as a day index (`dt.date`). -/
def tsDate (ts : ℤ) : ℤ := Int.ediv ts 86400

/-- English weekday name used by the source's `day_names` table. -/
def dayName : Nat → String
  | 0 => "Monday"
  | 1 => "Tuesday"
  | 2 => "Wednesday"
  | 3 => "Thursday"
  | 4 => "Friday"
  | 5 => "Saturday"
  | _ => "Sunday"

/-- Descending-count order for peak-hour selection. -/
def hourCountLE (a b : ℤ × Nat) : Prop := b.2 ≤ a.2

instance : DecidableRel hourCountLE := fun a b => by
  unfold hourCountLE; infer_instance

/-- Ascending order on day indices. -/
def dateLE (a b : ℤ) : Prop := a ≤ b

instance : DecidableRel dateLE := fun a b => by
  unfold dateLE; infer_instance

/-- The minimal temporal report for an existing grid with no submissions. -/
def temporalEmpty (gid : Nat) (gv : String) : TemporalReport :=
  { gridId := gid
    gridNumber := extract_grid_number gv
    gridVersion := gv
    totalSubmissions := 0
    message := some "No submissions yet for this grid"
    firstSubmission := none
    lastSubmission := none
    uniqueDays := none
    averageSubmissionsPerDay := none
    submissionsByHour := none
    submissionsByDayOfWeek := none
    peakHours := none
    dailyTimeline := none }

/-- The full temporal report computed from the nonempty timestamp list
`t0 :: trest`.  The peak-hour tie order is incidental iteration order in
the source; first-occurrence order of the hour values stands in for it. -/
def temporalFull (gid : Nat) (gv : String) (t0 : ℤ) (trest : List ℤ) : TemporalReport :=
  let stamps := t0 :: trest
  let n := stamps.length
  let hours := stamps.map tsHour
  let daysOfWeek := stamps.map tsDayOfWeek
  let dates := stamps.map tsDate
  let uniqueDates := uniqueFirst dates
  let peak := (((uniqueFirst hours).map
      (fun h => (h, hours.count h))).insertionSort hourCountLE).take 3
  { gridId := gid
    gridNumber := extract_grid_number gv
    gridVersion := gv
    totalSubmissions := n
    message := none
    firstSubmission := some (zMin stamps)
    lastSubmission := some (zMax stamps)
    uniqueDays := some uniqueDates.length
    averageSubmissionsPerDay :=
      some (round2 (if 0 < uniqueDates.length then
        (n : ℚ) / (uniqueDates.length : ℚ) else 0))
    submissionsByHour :=
      some ((List.range 24).map (fun h => (h, hours.count (h : ℤ))))
    submissionsByDayOfWeek :=
      some ((List.range 7).map
        (fun i => { day := dayName i, dayNumber := i,
                    count := daysOfWeek.count (i : ℤ) }))
    peakHours := some (peak.map (fun p => { hour := p.1, count := p.2 }))
    dailyTimeline :=
      some ((uniqueDates.insertionSort dateLE).map
        (fun d => { date := d, count := dates.count d })) }

/-- Embedding of `calculate_temporal_stats`. -/
def calculate_temporal_stats (db : DB) (gid : Nat) : Except StatsError TemporalReport :=
  match findGrid db gid with
  | none => Except.error (StatsError.notFound gid)
  | some grid =>
    match (db.submissions.filter (fun s => s.grid_id == gid)).map (fun s => s.submitted_at) with
    | [] => Except.ok (temporalEmpty gid grid.version)
    | t0 :: trest => Except.ok (temporalFull gid grid.version t0 trest)

/-! ### Global rollup (`calculate_global_stats`) -/

/-- One per-grid summary row of the global rollup. -/
structure GridRollupRow where
  gridId : Nat
  gridNumber : Option Nat
  gridVersion : String
  totalPlayers : Nat
  completionRate : ℚ
  jokerUsageRate : ℚ
  totalWords : Nat
  averageWordsFound : ℚ
  medianCompletionTime : ℤ
deriving DecidableEq, Inhabited

/-- The global rollup report. -/
structure GlobalStats where
  totalUsers : Nat
  totalGrids : Nat
  publishedGrids : Nat
  totalSubmissions : Nat
  averageSubmissionsPerGrid : ℚ
  gridStats : List GridRollupRow
deriving DecidableEq, Inhabited

/-- Midnight UTC of a calendar date given as days since the epoch: the
value of `datetime.fromisoformat` on the date string. -/
def dayStartTs (d : ℤ) : ℤ := d * 86400

/-- The submission-timestamp filter of the rollup: `submitted_at >= start`
(when a start instant is given) and `submitted_at < end` (when an end
instant is given). -/
def submissionInRange (dfs dfe : Option ℤ) (ts : ℤ) : Bool :=
  (match dfs with
   | none => true
   | some t => decide (t ≤ ts)) &&
  (match dfe with
   | none => true
   | some t => decide (ts < t))

/-- Published grids in fetch order. -/
def publishedOf (db : DB) : List Grid :=
  db.grids.filter (fun g => g.published_at.isSome)

/-- Outer-join rows for one grid: one row per submission, or a single row
with a null submission when the grid has none. -/
def outerRows (db : DB) (g : Grid) : List (Grid × Option Submission) :=
  match db.submissions.filter (fun s => s.grid_id == g.id) with
  | [] => [(g, none)]
  | s :: ss => (s :: ss).map (fun s2 => (g, some s2))

/-- Concatenated outer-join rows of a grid list. -/
def allOuterRows (db : DB) : List Grid → List (Grid × Option Submission)
  | [] => []
  | g :: gs => outerRows db g ++ allOuterRows db gs

/-- The WHERE-clause date filter applied to the outer-join rows: each
bound is checked only on rows whose submission is non-null
(`... | Submission.submitted_at.is_(None)`). -/
def rowInRange (dfs dfe : Option ℤ) (r : Grid × Option Submission) : Bool :=
  match r.2 with
  | none => true
  | some s => submissionInRange dfs dfe s.submitted_at

/-- The rollup's joined and filtered dataframe, as a row list. -/
def globalRows (db : DB) (dfs dfe : Option ℤ) : List (Grid × Option Submission) :=
  (allOuterRows db (publishedOf db)).filter (rowInRange dfs dfe)

/-- The per-grid summary row the rollup builds for grid id `gid` from the
filtered rows, or `none` when the grid has no surviving row at all (such a
grid is absent from the dataframe and produces no output row). -/
def rollupRowFor (rows : List (Grid × Option Submission)) (gid : Nat) :
    Option GridRollupRow :=
  match rows.filter (fun r => r.1.id == gid) with
  | [] => none
  | r0 :: rrest =>
    match (r0 :: rrest).filterMap (fun r => r.2) with
    | [] =>
      some { gridId := gid
             gridNumber := extract_grid_number r0.1.version
             gridVersion := r0.1.version
             totalPlayers := 0
             completionRate := 0
             jokerUsageRate := 0
             totalWords := 0
             averageWordsFound := 0
             medianCompletionTime := 0 }
    | s0 :: srest =>
      let ss := s0 :: srest
      let nsub := ss.length
      let completed := (ss.filter (fun s => s.words_found == s.total_words)).length
      some { gridId := gid
             gridNumber := extract_grid_number r0.1.version
             gridVersion := r0.1.version
             totalPlayers := nsub
             completionRate := round1 (((completed : ℚ) / (nsub : ℚ)) * 100)
             jokerUsageRate :=
               round1 ((((ss.filter (fun s => s.joker_used)).length : ℚ) / (nsub : ℚ)) * 100)
             totalWords := s0.total_words
             averageWordsFound := round1 (qMean (ss.map (fun s => (s.words_found : ℚ))))
             medianCompletionTime :=
               pyInt (quantileR7 (ss.map (fun s => (s.completion_time_seconds : ℚ))) (1/2)) }

/-- Ascending-grid-id order of the final `grids_stats.sort`. -/
def rowLE (a b : GridRollupRow) : Prop := a.gridId ≤ b.gridId

instance : DecidableRel rowLE := fun a b => by
  unfold rowLE; infer_instance

instance : IsTotal GridRollupRow rowLE := by
  constructor
  intro a b
  exact le_total a.gridId b.gridId

instance : IsTrans GridRollupRow rowLE := by
  constructor
  intro a b c hab hbc
  exact le_trans hab hbc

/-- Embedding of `calculate_global_stats`.  Date filters are calendar
dates (day indices); the end bound becomes midnight of the following day
(`fromisoformat(end_date) + timedelta(days=1)`). -/
def calculate_global_stats (db : DB) (start_date end_date : Option ℤ) : GlobalStats :=
  let dfs := start_date.map dayStartTs
  let dfe := end_date.map (fun d => dayStartTs d + 86400)
  let total_grids := db.grids.length
  let total_submissions :=
    (db.submissions.filter (fun s => submissionInRange dfs dfe s.submitted_at)).length
  let rows := globalRows db dfs dfe
  let ids := uniqueFirst (rows.map (fun r => r.1.id))
  let grids_stats := ids.filterMap (rollupRowFor rows)
  { totalUsers := db.users.length
    totalGrids := total_grids
    publishedGrids := (publishedOf db).length
    totalSubmissions := total_submissions
    averageSubmissionsPerGrid :=
      if 0 < total_grids then round2 ((total_submissions : ℚ) / (total_grids : ℚ)) else 0
    gridStats := grids_stats.insertionSort rowLE }

/-- Whether a service result is the NotFound failure (the boundary maps
exactly the `ValueError` of a missing grid to a 404). -/
def isNotFound {α : Type} : Except StatsError α → Bool
  | Except.error (StatsError.notFound _) => true
  | _ => false

/-! ### Concrete instances used by counterexamples and witnesses -/

/-- A submission literal with the fields the statistics read. -/
def mkSub (uid sid gid : Nat) (score : ℚ) (time : ℤ) (wf tw : Nat)
    (jk : Bool) (ts : ℤ) : Submission :=
  { id := sid, user_id := uid, grid_id := gid, correct_cells := 0,
    base_score := score, time_bonus := 0, joker_penalty := 0, final_score := score,
    completion_time_seconds := time, words_found := wf, total_words := tw,
    joker_used := jk, submitted_at := ts }

/-- Grid 1 with one joker submission (score 10) and one non-joker
submission (score 20). -/
def dbC1 : DB :=
  { users := [⟨1, "a"⟩, ⟨2, "b"⟩],
    grids := [⟨1, "v1", some 0⟩],
    submissions := [mkSub 1 1 1 10 100 5 5 true 3600,
                    mkSub 2 2 1 20 200 5 5 false 7200] }

/-- Grid 1 with a single non-joker submission (score 20). -/
def dbC1b : DB :=
  { users := [⟨1, "a"⟩],
    grids := [⟨1, "v1", some 0⟩],
    submissions := [mkSub 1 1 1 20 200 5 5 false 7200] }

/-- The joker-usage block computed for `dbC1`. -/
def juC1 : JokerUsage :=
  (((calculate_grid_stats dbC1 1).toOption.getD default).jokerUsage).getD default

/-- The joker-usage block computed for `dbC1b`. -/
def juC1b : JokerUsage :=
  (((calculate_grid_stats dbC1b 1).toOption.getD default).jokerUsage).getD default

/-- One published grid whose only submission is timestamped on day 19758
(2024-02-05), outside the filtered range of day 19723 (2024-01-01). -/
def dbC2 : DB :=
  { users := [⟨1, "a"⟩],
    grids := [⟨1, "v1", some 0⟩],
    submissions := [mkSub 1 1 1 10 100 5 5 false (19758 * 86400)] }

/-- Two grids of which one is published, and a single submission. -/
def dbC3 : DB :=
  { users := [⟨1, "a"⟩],
    grids := [⟨1, "v1", some 0⟩, ⟨2, "v2", none⟩],
    submissions := [mkSub 1 1 1 10 100 5 5 false 0] }

/-- Scenario A data: scores `[10, 20, 20]` with times `[100, 50, 80]`. -/
def dbC4 : DB :=
  { users := [⟨1, "u1"⟩, ⟨2, "u2"⟩, ⟨3, "u3"⟩],
    grids := [⟨1, "1-grid-13.0", some 0⟩],
    submissions := [mkSub 1 1 1 10 100 5 5 true 3600,
                    mkSub 2 2 1 20 50 5 5 false 7200,
                    mkSub 3 3 1 20 80 4 5 false 7300] }

/-- The leaderboard computed for `dbC4`. -/
def lbC4 : List LeaderboardEntry :=
  (get_leaderboard dbC4 1 10).toOption.getD default

/-- Scenario A data again, for the percentile claim. -/
def dbC6 : DB :=
  { users := [⟨1, "u1"⟩, ⟨2, "u2"⟩, ⟨3, "u3"⟩],
    grids := [⟨1, "1-grid-13.0", some 0⟩],
    submissions := [mkSub 1 1 1 10 100 5 5 true 3600,
                    mkSub 2 2 1 20 50 5 5 false 7200,
                    mkSub 3 3 1 20 80 4 5 false 7300] }

/-- The grid report computed for `dbC6`. -/
def repC6 : GridStatsReport :=
  (calculate_grid_stats dbC6 1).toOption.getD default

/-- The score block computed for `dbC6`. -/
def scC6 : ScoresStats := repC6.scores.getD default

/-- A grid whose two submissions share the single score 5 (degenerate
histogram range). -/
def dbC7 : DB :=
  { users := [⟨1, "a"⟩, ⟨2, "b"⟩],
    grids := [⟨1, "v1", some 0⟩],
    submissions := [mkSub 1 1 1 5 100 5 5 false 0,
                    mkSub 2 2 1 5 200 5 5 false 0] }

/-- The score distribution computed for `dbC7` with 2 bins. -/
def sdC7 : ScoreDistribution :=
  (get_score_distribution dbC7 1 2).toOption.getD default

/-- Spread scores `[10, 20, 20]` and times `[100, 50, 80]` for the
histogram witness. -/
def dbC7w : DB :=
  { users := [⟨1, "u1"⟩, ⟨2, "u2"⟩, ⟨3, "u3"⟩],
    grids := [⟨1, "1-grid-13.0", some 0⟩],
    submissions := [mkSub 1 1 1 10 100 5 5 true 3600,
                    mkSub 2 2 1 20 50 5 5 false 7200,
                    mkSub 3 3 1 20 80 4 5 false 7300] }

/-- The score distribution computed for `dbC7w` with 2 bins. -/
def sdC7w : ScoreDistribution :=
  (get_score_distribution dbC7w 1 2).toOption.getD default

/-- The time distribution computed for `dbC7w` with 2 bins. -/
def tdC7w : TimeDistribution :=
  (get_completion_time_distribution dbC7w 1 2).toOption.getD default

/-- A grid with a single submission, for the standard-deviation claim. -/
def dbC8 : DB :=
  { users := [⟨1, "a"⟩],
    grids := [⟨1, "v1", some 0⟩],
    submissions := [mkSub 1 1 1 37 100 5 5 false 0] }

/-- The grid report computed for `dbC8`. -/
def repC8 : GridStatsReport :=
  (calculate_grid_stats dbC8 1).toOption.getD default

/-- The score block computed for `dbC8`. -/
def scC8 : ScoresStats := repC8.scores.getD default

/-- The existing but submission-less grid of the error-handling witness. -/
def gC9 : Grid := ⟨1, "1-grid-2.0", some 0⟩

/-- A database holding only `gC9` and no submissions. -/
def dbC9 : DB := { users := [⟨1, "a"⟩], grids := [gC9], submissions := [] }

/-- Two submissions of one grid that disagree on `total_words` (5 first,
then 7). -/
def dbC10 : DB :=
  { users := [⟨1, "a"⟩, ⟨2, "b"⟩],
    grids := [⟨1, "v1", some 0⟩],
    submissions := [mkSub 1 1 1 10 100 5 5 false 0,
                    mkSub 2 2 1 20 200 6 7 false 0] }

/-- The grid report computed for `dbC10`. -/
def repC10 : GridStatsReport :=
  (calculate_grid_stats dbC10 1).toOption.getD default

/-- The words block computed for `dbC10`. -/
def wsC10 : WordsStats := repC10.wordsStats.getD default

/-- The first global-rollup row computed for `dbC10`. -/
def rowC10 : GridRollupRow :=
  ((calculate_global_stats dbC10 none none).gridStats).headD default

/-! ### Lemmas: minima, maxima, sorting -/

theorem foldl_min_le_init (xs : List ℚ) (x : ℚ) : xs.foldl min x ≤ x := by
  induction xs generalizing x with
  | nil => simp [List.foldl]
  | cons a t ih =>
    simpa [List.foldl_cons] using le_trans (ih (min x a)) (min_le_left x a)

theorem foldl_min_le_mem (xs : List ℚ) (x y : ℚ) (hy : y ∈ xs) :
    xs.foldl min x ≤ y := by
  induction xs generalizing x with
  | nil => cases hy
  | cons a t ih =>
    rcases List.mem_cons.mp hy with h | h
    · subst h
      simpa [List.foldl_cons] using le_trans (foldl_min_le_init t (min x y)) (min_le_right x y)
    · simpa [List.foldl_cons] using ih (min x a) h

theorem foldl_min_mem (xs : List ℚ) (x : ℚ) :
    xs.foldl min x = x ∨ xs.foldl min x ∈ xs := by
  induction xs generalizing x with
  | nil => exact Or.inl rfl
  | cons a t ih =>
    rcases ih (min x a) with h | h
    · rcases min_choice x a with hx | hx
      · exact Or.inl (by simpa [List.foldl_cons, hx] using h)
      · refine Or.inr (List.mem_cons.mpr (Or.inl ?_))
        simpa [List.foldl_cons, hx] using h
    · exact Or.inr (List.mem_cons.mpr (Or.inr (by simpa [List.foldl_cons] using h)))

theorem init_le_foldl_max (xs : List ℚ) (x : ℚ) : x ≤ xs.foldl max x := by
  induction xs generalizing x with
  | nil => simp [List.foldl]
  | cons a t ih =>
    simpa [List.foldl_cons] using le_trans (le_max_left x a) (ih (max x a))

theorem mem_le_foldl_max (xs : List ℚ) (x y : ℚ) (hy : y ∈ xs) :
    y ≤ xs.foldl max x := by
  induction xs generalizing x with
  | nil => cases hy
  | cons a t ih =>
    rcases List.mem_cons.mp hy with h | h
    · subst h
      simpa [List.foldl_cons] using le_trans (le_max_right x y) (init_le_foldl_max t (max x y))
    · simpa [List.foldl_cons] using ih (max x a) h

theorem foldl_max_mem (xs : List ℚ) (x : ℚ) :
    xs.foldl max x = x ∨ xs.foldl max x ∈ xs := by
  induction xs generalizing x with
  | nil => exact Or.inl rfl
  | cons a t ih =>
    rcases ih (max x a) with h | h
    · rcases max_choice x a with hx | hx
      · exact Or.inl (by simpa [List.foldl_cons, hx] using h)
      · refine Or.inr (List.mem_cons.mpr (Or.inl ?_))
        simpa [List.foldl_cons, hx] using h
    · exact Or.inr (List.mem_cons.mpr (Or.inr (by simpa [List.foldl_cons] using h)))

theorem qMin_le_mem (l : List ℚ) (y : ℚ) (hy : y ∈ l) : qMin l ≤ y := by
  cases l with
  | nil => cases hy
  | cons x xs =>
    rcases List.mem_cons.mp hy with h | h
    · subst h; exact foldl_min_le_init xs y
    · exact foldl_min_le_mem xs x y h

theorem qMin_mem (l : List ℚ) (h : l ≠ []) : qMin l ∈ l := by
  cases l with
  | nil => exact absurd rfl h
  | cons x xs =>
    rcases foldl_min_mem xs x with h2 | h2
    · exact List.mem_cons.mpr (Or.inl h2)
    · exact List.mem_cons.mpr (Or.inr h2)

theorem mem_le_qMax (l : List ℚ) (y : ℚ) (hy : y ∈ l) : y ≤ qMax l := by
  cases l with
  | nil => cases hy
  | cons x xs =>
    rcases List.mem_cons.mp hy with h | h
    · subst h; exact init_le_foldl_max xs y
    · exact mem_le_foldl_max xs x y h

theorem qMax_mem (l : List ℚ) (h : l ≠ []) : qMax l ∈ l := by
  cases l with
  | nil => exact absurd rfl h
  | cons x xs =>
    rcases foldl_max_mem xs x with h2 | h2
    · exact List.mem_cons.mpr (Or.inl h2)
    · exact List.mem_cons.mpr (Or.inr h2)

theorem qMin_le_qMax (l : List ℚ) (h : l ≠ []) : qMin l ≤ qMax l :=
  le_trans (qMin_le_mem l (qMax l) (qMax_mem l h)) (le_refl _)

theorem sortQ_sorted (l : List ℚ) : List.Sorted (fun a b : ℚ => a ≤ b) (sortQ l) :=
  List.sorted_insertionSort _ l

theorem sortQ_perm (l : List ℚ) : List.Perm (sortQ l) l :=
  List.perm_insertionSort _ l

theorem sortQ_length (l : List ℚ) : (sortQ l).length = l.length :=
  List.length_insertionSort _ l

theorem sortQ_mem (l : List ℚ) (x : ℚ) (hx : x ∈ sortQ l) : x ∈ l :=
  (sortQ_perm l).mem_iff.mp hx

theorem getD_mem (l : List ℚ) (i : Nat) (h : i < l.length) : l.getD i 0 ∈ l := by
  rw [List.getD_eq_getElem l 0 h]
  exact List.getElem_mem h

theorem sorted_getD_mono (s : List ℚ)
    (hs : List.Sorted (fun a b : ℚ => a ≤ b) s) (i j : Nat) (hij : i ≤ j)
    (hj : j < s.length) : s.getD i 0 ≤ s.getD j 0 := by
  have hi : i < s.length := lt_of_le_of_lt (Nat.lt_succ_iff.mp (Nat.lt_succ_of_le hij)) hj
  rw [List.getD_eq_getElem s 0 hi, List.getD_eq_getElem s 0 hj]
  rcases Nat.lt_or_ge i j with hlt | hge
  · exact List.pairwise_iff_get.mp hs ⟨i, hi⟩ ⟨j, hj⟩ hlt
  · have : i = j := Nat.le_antisymm hij hge
    subst this
    exact le_refl _

/-! ### Lemmas: linear-interpolation quantiles -/

theorem interp_bounds (s : List ℚ)
    (hs : List.Sorted (fun a b : ℚ => a ≤ b) s) (h : ℚ) (h0 : 0 ≤ h)
    (hn : h ≤ (s.length : ℚ) - 1) :
    s.getD (⌊h⌋).toNat 0 ≤ interp s h ∧ interp s h ≤ s.getD (⌈h⌉).toNat 0 := by
  have hlen : 1 ≤ s.length := by
    by_contra hcon
    have : s.length = 0 := by omega
    rw [this] at hn
    norm_num at hn
    linarith
  have hfl0 : (0 : ℤ) ≤ ⌊h⌋ := Int.floor_nonneg.mpr h0
  have hceil : ⌈h⌉ ≤ (s.length : ℤ) - 1 := by
    rw [Int.ceil_le]
    push_cast
    exact hn
  have hflceil : ⌊h⌋ ≤ ⌈h⌉ := Int.floor_le_ceil h
  have hhi_lt : (⌈h⌉).toNat < s.length := by omega
  have hlo_le_hi : (⌊h⌋).toNat ≤ (⌈h⌉).toNat := by omega
  have hdiff : 0 ≤ s.getD (⌈h⌉).toNat 0 - s.getD (⌊h⌋).toNat 0 :=
    sub_nonneg.mpr (sorted_getD_mono s hs _ _ hlo_le_hi hhi_lt)
  have hfrac0 : 0 ≤ h - ⌊h⌋ := sub_nonneg.mpr (Int.floor_le h)
  have hfrac1 : h - ⌊h⌋ ≤ 1 := by
    have := Int.lt_floor_add_one h
    push_cast at this
    linarith
  constructor
  · have : 0 ≤ (h - ⌊h⌋) * (s.getD (⌈h⌉).toNat 0 - s.getD (⌊h⌋).toNat 0) :=
      mul_nonneg hfrac0 hdiff
    unfold interp
    linarith
  · have : (h - ⌊h⌋) * (s.getD (⌈h⌉).toNat 0 - s.getD (⌊h⌋).toNat 0) ≤
        1 * (s.getD (⌈h⌉).toNat 0 - s.getD (⌊h⌋).toNat 0) :=
      mul_le_mul_of_nonneg_right hfrac1 hdiff
    unfold interp
    linarith

theorem interp_mono (s : List ℚ)
    (hs : List.Sorted (fun a b : ℚ => a ≤ b) s) (h1 h2 : ℚ) (h0 : 0 ≤ h1)
    (h12 : h1 ≤ h2) (hn : h2 ≤ (s.length : ℚ) - 1) :
    interp s h1 ≤ interp s h2 := by
  rcases eq_or_lt_of_le h12 with rfl | hlt
  · exact le_refl _
  have hn1 : h1 ≤ (s.length : ℚ) - 1 := le_trans h12 hn
  have h02 : 0 ≤ h2 := le_trans h0 h12
  rcases le_or_lt (⌈h1⌉) (⌊h2⌋) with hcase | hcase
  · have b1 := (interp_bounds s hs h1 h0 hn1).2
    have b2 := (interp_bounds s hs h2 h02 hn).1
    have hc0 : (0 : ℤ) ≤ ⌈h1⌉ := Int.ceil_nonneg h0
    have hfl2 : ⌊h2⌋ ≤ ⌈h2⌉ := Int.floor_le_ceil h2
    have hceil2 : ⌈h2⌉ ≤ (s.length : ℤ) - 1 := by
      rw [Int.ceil_le]
      push_cast
      exact hn
    have hlen : 1 ≤ s.length := by
      by_contra hcon
      have : s.length = 0 := by omega
      rw [this] at hn
      norm_num at hn
      linarith
    have hmid : s.getD (⌈h1⌉).toNat 0 ≤ s.getD (⌊h2⌋).toNat 0 :=
      sorted_getD_mono s hs _ _ (by omega) (by omega)
    linarith
  · have hf1 : ⌊h1⌋ ≤ ⌊h2⌋ := Int.floor_le_floor h12
    have hc1 : ⌈h1⌉ ≤ ⌊h1⌋ + 1 := Int.ceil_le_floor_add_one h1
    have hEq : ⌊h2⌋ = ⌊h1⌋ := by omega
    have ha2 : h2 < (⌊h1⌋ : ℚ) + 1 := by
      have := Int.lt_floor_add_one h2
      rw [hEq] at this
      linarith
    have hgt : (⌊h1⌋ : ℚ) < h2 := lt_of_le_of_lt (Int.floor_le h1) hlt
    rcases eq_or_lt_of_le (Int.floor_le h1) with heq | hlt1
    · have hz1 : h1 - (⌊h1⌋ : ℚ) = 0 := by linarith
      have b2 := (interp_bounds s hs h2 h02 hn).1
      unfold interp at b2
      unfold interp
      rw [hz1, hEq]
      rw [hEq] at b2
      linarith
    · have hc1eq : ⌈h1⌉ = ⌊h1⌋ + 1 := by
        rw [Int.ceil_eq_iff]
        constructor
        · push_cast
          linarith
        · push_cast
          linarith
      have hc2eq : ⌈h2⌉ = ⌊h1⌋ + 1 := by
        rw [Int.ceil_eq_iff]
        constructor
        · push_cast
          linarith
        · push_cast
          linarith
      have hceil2 : ⌈h2⌉ ≤ (s.length : ℤ) - 1 := by
        rw [Int.ceil_le]
        push_cast
        exact hn
      have hfl0 : (0 : ℤ) ≤ ⌊h1⌋ := Int.floor_nonneg.mpr h0
      have hdiff : 0 ≤ s.getD (⌊h1⌋ + 1).toNat 0 - s.getD (⌊h1⌋).toNat 0 :=
        sub_nonneg.mpr (sorted_getD_mono s hs _ _ (by omega) (by omega))
      unfold interp
      rw [hEq, hc1eq, hc2eq]
      have hmul : (h1 - (⌊h1⌋ : ℚ)) * (s.getD (⌊h1⌋ + 1).toNat 0 - s.getD (⌊h1⌋).toNat 0) ≤
          (h2 - (⌊h1⌋ : ℚ)) * (s.getD (⌊h1⌋ + 1).toNat 0 - s.getD (⌊h1⌋).toNat 0) :=
        mul_le_mul_of_nonneg_right (by linarith) hdiff
      linarith

theorem quantileR7_mono (l : List ℚ) (hne : l ≠ []) (q1 q2 : ℚ)
    (h1 : 0 ≤ q1) (h12 : q1 ≤ q2) (h2 : q2 ≤ 1) :
    quantileR7 l q1 ≤ quantileR7 l q2 := by
  have hlen : 1 ≤ l.length := List.length_pos.mpr hne
  have hn : (0 : ℚ) ≤ (l.length : ℚ) - 1 := by
    have : (1 : ℚ) ≤ (l.length : ℚ) := by exact_mod_cast hlen
    linarith
  unfold quantileR7
  apply interp_mono (sortQ l) (sortQ_sorted l)
  · exact mul_nonneg h1 hn
  · exact mul_le_mul_of_nonneg_right h12 hn
  · rw [sortQ_length]
    calc q2 * ((l.length : ℚ) - 1) ≤ 1 * ((l.length : ℚ) - 1) :=
          mul_le_mul_of_nonneg_right h2 hn
      _ = (l.length : ℚ) - 1 := one_mul _

theorem quantileR7_bounds (l : List ℚ) (hne : l ≠ []) (q : ℚ)
    (h0 : 0 ≤ q) (h1 : q ≤ 1) :
    qMin l ≤ quantileR7 l q ∧ quantileR7 l q ≤ qMax l := by
  have hlen : 1 ≤ l.length := List.length_pos.mpr hne
  have hn : (0 : ℚ) ≤ (l.length : ℚ) - 1 := by
    have : (1 : ℚ) ≤ (l.length : ℚ) := by exact_mod_cast hlen
    linarith
  have hq0 : 0 ≤ q * ((l.length : ℚ) - 1) := mul_nonneg h0 hn
  have hqn : q * ((l.length : ℚ) - 1) ≤ ((sortQ l).length : ℚ) - 1 := by
    rw [sortQ_length]
    calc q * ((l.length : ℚ) - 1) ≤ 1 * ((l.length : ℚ) - 1) :=
          mul_le_mul_of_nonneg_right h1 hn
      _ = (l.length : ℚ) - 1 := one_mul _
  have hb := interp_bounds (sortQ l) (sortQ_sorted l) _ hq0 hqn
  have hfl0 : (0 : ℤ) ≤ ⌊q * ((l.length : ℚ) - 1)⌋ := Int.floor_nonneg.mpr hq0
  have hceil : ⌈q * ((l.length : ℚ) - 1)⌉ ≤ ((sortQ l).length : ℤ) - 1 := by
    rw [Int.ceil_le]
    push_cast
    exact hqn
  have hflceil := Int.floor_le_ceil (q * ((l.length : ℚ) - 1))
  have hslen : 1 ≤ (sortQ l).length := by rw [sortQ_length]; exact hlen
  have hlo_mem : (sortQ l).getD (⌊q * ((l.length : ℚ) - 1)⌋).toNat 0 ∈ l :=
    sortQ_mem l _ (getD_mem _ _ (by omega))
  have hhi_mem : (sortQ l).getD (⌈q * ((l.length : ℚ) - 1)⌉).toNat 0 ∈ l :=
    sortQ_mem l _ (getD_mem _ _ (by omega))
  constructor
  · exact le_trans (qMin_le_mem l _ hlo_mem) hb.1
  · exact le_trans hb.2 (mem_le_qMax l _ hhi_mem)

/-! ### Inversion of the grid-statistics computation -/

theorem grid_stats_ok_inv (db : DB) (gid : Nat) (rep : GridStatsReport)
    (hok : calculate_grid_stats db gid = Except.ok rep) :
    ∃ g, findGrid db gid = some g ∧
      ((gridRows db gid = [] ∧ rep = gridStatsEmpty gid g.version) ∨
       (∃ r0 rrest, gridRows db gid = r0 :: rrest ∧
         rep = gridStatsFull gid g.version r0 rrest)) := by
  unfold calculate_grid_stats at hok
  split at hok
  · simp at hok
  · rename_i g hf
    split at hok
    · rename_i hr
      exact ⟨g, hf, Or.inl ⟨hr, (Except.ok.inj hok).symm⟩⟩
    · rename_i r0 rrest hr
      exact ⟨g, hf, Or.inr ⟨r0, rrest, hr, (Except.ok.inj hok).symm⟩⟩

/-! ### Claim C1 -/

/-- C1: at a grid with one joker submission (score 10) and one non-joker
submission (score 20), the code reports `averageScoreWithoutJoker = 10` —
the mean over the joker subset — although the mean over the non-joker
subset is 20; and at a grid whose single submission does not use the
joker, it reports `averageScoreWithoutJoker = null` although the
non-joker subset is nonempty.  (The source filters `df["joker_used"]`
twice instead of negating it for the `without` subset.) -/
theorem c1_without_joker_average_bug :
    juC1.averageScoreWithJoker = some 10 ∧
    juC1.averageScoreWithoutJoker = some 10 ∧
    qMean ((dbC1.submissions.filter (fun s => s.joker_used == false)).map
      (fun s => s.final_score)) = 20 ∧
    juC1b.averageScoreWithoutJoker = none ∧
    (dbC1b.submissions.filter (fun s => s.joker_used == false)).length = 1 := by
  with_unfolding_all decide

/-! ### Claim C2 -/

/-- C2: the published grid of `dbC2` has one submission, timestamped
outside the filtered single-day range 2024-01-01 (day 19723); the rollup
output then contains no per-grid row at all for it, although the same
call without a date filter does produce its row.  (The date filter is
applied after the outer join, so a grid whose submissions all fall outside
the range loses every row.) -/
theorem c2_grid_dropped_under_date_filter :
    (publishedOf dbC2).length = 1 ∧
    (calculate_global_stats dbC2 (some 19723) (some 19723)).gridStats = [] ∧
    (calculate_global_stats dbC2 none none).gridStats ≠ [] := by
  with_unfolding_all decide

/-! ### Claim C3 -/

/-- C3 counterexample: with two grids of which one is published and a
single (in-range) submission, the code reports
`averageSubmissionsPerGrid = 0.5` (dividing by the total grid count 2),
while the claim's value — the submission count divided by the published
grid count, rounded — is 1. -/
theorem c3_counterexample_published_divisor :
    (calculate_global_stats dbC3 none none).averageSubmissionsPerGrid = 1/2 ∧
    (calculate_global_stats dbC3 none none).publishedGrids = 1 ∧
    (calculate_global_stats dbC3 none none).totalSubmissions = 1 ∧
    round2 ((1 : ℚ) / (1 : ℚ)) = 1 ∧ ((1 : ℚ)/2) ≠ 1 := by
  with_unfolding_all decide

/-- C3 amended: `averageSubmissionsPerGrid` equals the date-filtered
total submission count divided by the total number of grids (published or
not), rounded to 2 decimal places, and is 0 when there are no grids at
all. -/
theorem c3_average_submissions_per_grid (db : DB) (sd ed : Option ℤ) :
    (calculate_global_stats db sd ed).averageSubmissionsPerGrid =
      (if 0 < (calculate_global_stats db sd ed).totalGrids then
        round2 (((calculate_global_stats db sd ed).totalSubmissions : ℚ) /
          ((calculate_global_stats db sd ed).totalGrids : ℚ))
      else 0) ∧
    (calculate_global_stats db sd ed).totalGrids = db.grids.length ∧
    (calculate_global_stats db sd ed).totalSubmissions =
      (db.submissions.filter (fun s =>
        submissionInRange (sd.map dayStartTs)
          (ed.map (fun d => dayStartTs d + 86400)) s.submitted_at)).length :=
  ⟨rfl, rfl, rfl⟩

/-! ### Claim C5 -/

/-- C5: the rollup's total submission count filters by exactly the
half-open instant interval: a submission is counted iff its timestamp is
at or after the start date's midnight (when a start date is given) and
strictly before the midnight following the end date (when an end date is
given); with both dates equal to day 19723 (2024-01-01) this keeps
exactly the timestamps of that calendar day and excludes midnight of
2024-01-02. -/
theorem c5_half_open_date_interval (db : DB) (sd ed : Option ℤ) (ts : ℤ) :
    ((calculate_global_stats db sd ed).totalSubmissions =
      (db.submissions.filter (fun s =>
        submissionInRange (sd.map dayStartTs)
          (ed.map (fun d => dayStartTs d + 86400)) s.submitted_at)).length) ∧
    (submissionInRange (sd.map dayStartTs)
        (ed.map (fun d => dayStartTs d + 86400)) ts = true ↔
      ((∀ d, sd = some d → dayStartTs d ≤ ts) ∧
       (∀ d, ed = some d → ts < dayStartTs (d + 1)))) ∧
    (submissionInRange ((some 19723).map dayStartTs)
        (((some 19723) : Option ℤ).map (fun d => dayStartTs d + 86400)) ts = true ↔
      (19723 * 86400 ≤ ts ∧ ts < 19724 * 86400)) := by
  refine ⟨rfl, ?_, ?_⟩
  · cases sd <;> cases ed <;> simp [submissionInRange, dayStartTs]
    all_goals omega
  · simp [submissionInRange, dayStartTs]

/-! ### Claim C8 -/

/-- C8: the reported score standard deviation (carried squared as
`std_sq`) is exactly 0 whenever fewer than 2 submissions exist, and for
2 or more submissions its square equals the sample variance with the
(n − 1) divisor over the final scores. -/
theorem c8_std_sample_divisor (db : DB) (gid : Nat) (rep : GridStatsReport)
    (sc : ScoresStats) (hok : calculate_grid_stats db gid = Except.ok rep)
    (hsc : rep.scores = some sc) :
    (rep.totalSubmissions < 2 → sc.std_sq = 0) ∧
    (2 ≤ rep.totalSubmissions →
      sc.std_sq =
        ((((gridRows db gid).map Prod.fst).map (fun s => s.final_score)).map
          (fun x => (x - qMean (((gridRows db gid).map Prod.fst).map
            (fun s => s.final_score))) ^ 2)).sum /
          (((((gridRows db gid).map Prod.fst).map
            (fun s => s.final_score)).length : ℚ) - 1)) := by
  obtain ⟨g, hf, hcase⟩ := grid_stats_ok_inv db gid rep hok
  rcases hcase with ⟨hr, hrep⟩ | ⟨r0, rrest, hr, hrep⟩
  · subst hrep
    simp [gridStatsEmpty] at hsc
  · subst hrep
    rw [hr]
    simp only [gridStatsFull, Option.some.injEq] at hsc
    subst hsc
    simp only [gridStatsFull]
    have hlen : (((r0 :: rrest).map Prod.fst).map
        (fun s => s.final_score)).length = ((r0 :: rrest).map Prod.fst).length := by
      simp
    constructor
    · intro hlt
      unfold pandasVar
      rw [if_pos]
      · rfl
      · rw [hlen]
        exact hlt
    · intro hge
      unfold pandasVar
      rw [if_neg]
      · rfl
      · rw [hlen]
        omega

/-- C8 witness: the single-submission grid `dbC8` has a report with one
submission and a reported standard deviation of exactly 0. -/
theorem c8_single_submission_witness :
    repC8.totalSubmissions = 1 ∧ scC8.std_sq = 0 :=
  ⟨by with_unfolding_all rfl,
   (c8_std_sample_divisor dbC8 1 repC8 scC8 (by with_unfolding_all rfl)
     (by with_unfolding_all rfl)).1 (by with_unfolding_all decide)⟩

/-! ### Claim C6 -/

/-- C6: the nine score percentiles of a nonempty grid report are the
R-7 linear-interpolation quantiles of the final scores at
0.01/0.05/0.10/0.25/0.50/0.75/0.90/0.95/0.99, and they are monotonically
non-decreasing in the quantile with `min ≤ p1` and `p99 ≤ max` (hence
`min ≤ p1 ≤ p50 ≤ p99 ≤ max`). -/
theorem c6_percentiles_r7_monotone (db : DB) (gid : Nat) (rep : GridStatsReport)
    (sc : ScoresStats) (hok : calculate_grid_stats db gid = Except.ok rep)
    (hsc : rep.scores = some sc) :
    (sc.percentiles.p1 = quantileR7 (((gridRows db gid).map Prod.fst).map
        (fun s => s.final_score)) (1/100) ∧
     sc.percentiles.p5 = quantileR7 (((gridRows db gid).map Prod.fst).map
        (fun s => s.final_score)) (5/100) ∧
     sc.percentiles.p10 = quantileR7 (((gridRows db gid).map Prod.fst).map
        (fun s => s.final_score)) (10/100) ∧
     sc.percentiles.p25 = quantileR7 (((gridRows db gid).map Prod.fst).map
        (fun s => s.final_score)) (25/100) ∧
     sc.percentiles.p50 = quantileR7 (((gridRows db gid).map Prod.fst).map
        (fun s => s.final_score)) (50/100) ∧
     sc.percentiles.p75 = quantileR7 (((gridRows db gid).map Prod.fst).map
        (fun s => s.final_score)) (75/100) ∧
     sc.percentiles.p90 = quantileR7 (((gridRows db gid).map Prod.fst).map
        (fun s => s.final_score)) (90/100) ∧
     sc.percentiles.p95 = quantileR7 (((gridRows db gid).map Prod.fst).map
        (fun s => s.final_score)) (95/100) ∧
     sc.percentiles.p99 = quantileR7 (((gridRows db gid).map Prod.fst).map
        (fun s => s.final_score)) (99/100)) ∧
    (sc.min ≤ sc.percentiles.p1 ∧
     sc.percentiles.p1 ≤ sc.percentiles.p5 ∧
     sc.percentiles.p5 ≤ sc.percentiles.p10 ∧
     sc.percentiles.p10 ≤ sc.percentiles.p25 ∧
     sc.percentiles.p25 ≤ sc.percentiles.p50 ∧
     sc.percentiles.p50 ≤ sc.percentiles.p75 ∧
     sc.percentiles.p75 ≤ sc.percentiles.p90 ∧
     sc.percentiles.p90 ≤ sc.percentiles.p95 ∧
     sc.percentiles.p95 ≤ sc.percentiles.p99 ∧
     sc.percentiles.p99 ≤ sc.max) := by
  obtain ⟨g, hf, hcase⟩ := grid_stats_ok_inv db gid rep hok
  rcases hcase with ⟨hr, hrep⟩ | ⟨r0, rrest, hr, hrep⟩
  · subst hrep
    simp [gridStatsEmpty] at hsc
  · subst hrep
    rw [hr]
    simp only [gridStatsFull, Option.some.injEq] at hsc
    subst hsc
    have hne : ((r0 :: rrest).map Prod.fst).map (fun s => s.final_score) ≠ [] := by
      simp
    refine ⟨⟨rfl, rfl, rfl, rfl, rfl, rfl, rfl, rfl, rfl⟩,
      (quantileR7_bounds _ hne (1/100) (by norm_num) (by norm_num)).1,
      quantileR7_mono _ hne (1/100) (5/100) (by norm_num) (by norm_num) (by norm_num),
      quantileR7_mono _ hne (5/100) (10/100) (by norm_num) (by norm_num) (by norm_num),
      quantileR7_mono _ hne (10/100) (25/100) (by norm_num) (by norm_num) (by norm_num),
      quantileR7_mono _ hne (25/100) (50/100) (by norm_num) (by norm_num) (by norm_num),
      quantileR7_mono _ hne (50/100) (75/100) (by norm_num) (by norm_num) (by norm_num),
      quantileR7_mono _ hne (75/100) (90/100) (by norm_num) (by norm_num) (by norm_num),
      quantileR7_mono _ hne (90/100) (95/100) (by norm_num) (by norm_num) (by norm_num),
      quantileR7_mono _ hne (95/100) (99/100) (by norm_num) (by norm_num) (by norm_num),
      (quantileR7_bounds _ hne (99/100) (by norm_num) (by norm_num)).2⟩

/-- C6 witness: on the concrete grid `dbC6` (scores 10, 20, 20) the
computed percentile chain is monotone between the reported min and max. -/
theorem c6_scenario_witness :
    scC6.min ≤ scC6.percentiles.p1 ∧
    scC6.percentiles.p1 ≤ scC6.percentiles.p5 ∧
    scC6.percentiles.p5 ≤ scC6.percentiles.p10 ∧
    scC6.percentiles.p10 ≤ scC6.percentiles.p25 ∧
    scC6.percentiles.p25 ≤ scC6.percentiles.p50 ∧
    scC6.percentiles.p50 ≤ scC6.percentiles.p75 ∧
    scC6.percentiles.p75 ≤ scC6.percentiles.p90 ∧
    scC6.percentiles.p90 ≤ scC6.percentiles.p95 ∧
    scC6.percentiles.p95 ≤ scC6.percentiles.p99 ∧
    scC6.percentiles.p99 ≤ scC6.max :=
  (c6_percentiles_r7_monotone dbC6 1 repC6 scC6 (by with_unfolding_all rfl)
    (by with_unfolding_all rfl)).2

/-! ### Claim C4 -/

theorem addRanks_length (xs : List (Submission × String)) (r : Nat) :
    (addRanks r xs).length = xs.length := by
  induction xs generalizing r with
  | nil => rfl
  | cons x t ih =>
    simp only [addRanks, List.length_cons]
    rw [ih (r + 1)]

theorem range'_succ_eq (r n : Nat) : List.range' r (n + 1) = r :: List.range' (r + 1) n :=
  rfl

theorem addRanks_map_rank (xs : List (Submission × String)) (r : Nat) :
    (addRanks r xs).map LeaderboardEntry.rank = List.range' r xs.length := by
  induction xs generalizing r with
  | nil => rfl
  | cons x t ih =>
    simp only [addRanks, List.map_cons, List.length_cons, range'_succ_eq]
    rw [ih (r + 1)]
    rfl

theorem addRanks_mem (xs : List (Submission × String)) (r : Nat)
    (e : LeaderboardEntry) (he : e ∈ addRanks r xs) :
    ∃ n y, y ∈ xs ∧ e = mkEntry n y := by
  induction xs generalizing r with
  | nil => cases he
  | cons x t ih =>
    simp only [addRanks] at he
    rcases List.mem_cons.mp he with h | h
    · exact ⟨r, x, List.mem_cons_self x t, h⟩
    · obtain ⟨n, y, hy, he2⟩ := ih (r + 1) h
      exact ⟨n, y, List.mem_cons_of_mem x hy, he2⟩

theorem addRanks_pairwise (xs : List (Submission × String)) (r : Nat)
    (h : List.Pairwise lbLE xs) : List.Pairwise entGE (addRanks r xs) := by
  induction xs generalizing r with
  | nil => exact List.Pairwise.nil
  | cons x t ih =>
    rcases List.pairwise_cons.mp h with ⟨hx, ht⟩
    simp only [addRanks]
    refine List.pairwise_cons.mpr ⟨?_, ih (r + 1) ht⟩
    intro e he
    obtain ⟨n, y, hy, rfl⟩ := addRanks_mem t (r + 1) e he
    exact hx y hy

/-- C4: every leaderboard result carries ranks exactly `1..K` (as the
consecutive range starting at 1), and its entries are pairwise ordered:
for any earlier-vs-later pair, either the earlier score is strictly
greater, or the scores are equal and the earlier completion time is no
larger. -/
theorem c4_leaderboard_ranks_and_order (db : DB) (gid limit : Nat)
    (entries : List LeaderboardEntry)
    (hok : get_leaderboard db gid limit = Except.ok entries) :
    entries.map LeaderboardEntry.rank = List.range' 1 entries.length ∧
    List.Pairwise entGE entries := by
  unfold get_leaderboard at hok
  split at hok
  · simp at hok
  · rename_i g hf
    have he := Except.ok.inj hok
    subst he
    constructor
    · rw [addRanks_map_rank, addRanks_length]
    · refine addRanks_pairwise _ 1 ?_
      exact List.Pairwise.sublist (List.take_sublist limit _)
        (List.sorted_insertionSort lbLE (gridRows db gid))

/-- C4 witness: the Scenario-A leaderboard (scores 10/20/20, times
100/50/80) has ranks 1..3, is pairwise ordered, and lists
(20, 50), (20, 80), (10, 100) in that order. -/
theorem c4_scenario_witness :
    (lbC4.map LeaderboardEntry.rank = List.range' 1 lbC4.length ∧
      List.Pairwise entGE lbC4) ∧
    lbC4.map (fun e => (e.finalScore, e.completionTime)) =
      [(20, 50), (20, 80), (10, 100)] :=
  ⟨c4_leaderboard_ranks_and_order dbC4 1 10 lbC4 (by with_unfolding_all rfl),
   by with_unfolding_all rfl⟩

/-! ### Claim C9 -/

/-- C9: every grid-scoped report operation fails with NotFound exactly
when the grid id does not occur in the grid table; and for an existing
grid with zero submissions each operation succeeds with its well-formed
minimal result — for grid statistics a report with `totalSubmissions = 0`,
an explanatory message and no score/timing sub-objects. -/
theorem c9_notfound_iff_and_empty_minimal (db : DB) (gid limit nbins : Nat) :
    ((isNotFound (calculate_grid_stats db gid) = true ↔ findGrid db gid = none) ∧
     (isNotFound (get_leaderboard db gid limit) = true ↔ findGrid db gid = none) ∧
     (isNotFound (get_score_distribution db gid nbins) = true ↔ findGrid db gid = none) ∧
     (isNotFound (get_completion_time_distribution db gid nbins) = true ↔
       findGrid db gid = none) ∧
     (isNotFound (calculate_temporal_stats db gid) = true ↔ findGrid db gid = none)) ∧
    (findGrid db gid = none ↔ ∀ g ∈ db.grids, g.id ≠ gid) ∧
    (∀ g, findGrid db gid = some g →
      db.submissions.filter (fun s => s.grid_id == gid) = [] →
      (calculate_grid_stats db gid = Except.ok (gridStatsEmpty gid g.version) ∧
       (gridStatsEmpty gid g.version).totalSubmissions = 0 ∧
       (gridStatsEmpty gid g.version).message =
         some "No submissions yet for this grid" ∧
       (gridStatsEmpty gid g.version).scores = none ∧
       (gridStatsEmpty gid g.version).timing = none ∧
       get_leaderboard db gid limit = Except.ok [] ∧
       get_score_distribution db gid nbins =
         Except.ok { bins := [], counts := some [], min := none, max := none,
                     mean := none } ∧
       get_completion_time_distribution db gid nbins =
         Except.ok { bins := [], counts := some [], min := none, max := none,
                     mean := none, median := none } ∧
       calculate_temporal_stats db gid = Except.ok (temporalEmpty gid g.version))) := by
  refine ⟨⟨?_, ?_, ?_, ?_, ?_⟩, ?_, ?_⟩
  · unfold calculate_grid_stats
    cases hf : findGrid db gid with
    | none => simp [isNotFound]
    | some g => cases hr : gridRows db gid <;> simp [isNotFound]
  · unfold get_leaderboard
    cases hf : findGrid db gid <;> simp [isNotFound]
  · unfold get_score_distribution
    cases hf : findGrid db gid with
    | none => simp [isNotFound]
    | some g =>
      by_cases hv : subScores db gid = []
      · simp [isNotFound, hv]
      · by_cases hb : nbins = 0 <;> simp [isNotFound, hv, hb]
  · unfold get_completion_time_distribution
    cases hf : findGrid db gid with
    | none => simp [isNotFound]
    | some g =>
      by_cases hv : subTimes db gid = []
      · simp [isNotFound, hv]
      · by_cases hb : nbins = 0 <;> simp [isNotFound, hv, hb]
  · unfold calculate_temporal_stats
    cases hf : findGrid db gid with
    | none => simp [isNotFound]
    | some g =>
      cases hr : (db.submissions.filter (fun s => s.grid_id == gid)).map
        (fun s => s.submitted_at) <;> simp [isNotFound]
  · simp [findGrid, List.find?_eq_none]
  · intro g hf hsubs
    have hrows : gridRows db gid = [] := by
      unfold gridRows
      rw [hsubs]
      rfl
    have hvals : subScores db gid = [] := by
      unfold subScores
      rw [hsubs]
      rfl
    have htimes : subTimes db gid = [] := by
      unfold subTimes
      rw [hsubs]
      rfl
    refine ⟨?_, rfl, rfl, rfl, rfl, ?_, ?_, ?_, ?_⟩
    · unfold calculate_grid_stats
      rw [hf, hrows]
    · unfold get_leaderboard
      rw [hf, hrows]
      simp [addRanks]
    · simp [get_score_distribution, hf, hvals]
    · simp [get_completion_time_distribution, hf, htimes]
    · unfold calculate_temporal_stats
      rw [hf]
      rw [show (db.submissions.filter (fun s => s.grid_id == gid)).map
        (fun s => s.submitted_at) = [] from by rw [hsubs]; rfl]

/-- C9 witness: on the database holding only the submission-less grid
`gC9` (id 1), every operation returns its minimal success value, and a
missing grid id (2) yields the NotFound failure. -/
theorem c9_empty_grid_witness :
    (calculate_grid_stats dbC9 1 = Except.ok (gridStatsEmpty 1 gC9.version) ∧
     (gridStatsEmpty 1 gC9.version).totalSubmissions = 0 ∧
     (gridStatsEmpty 1 gC9.version).message =
       some "No submissions yet for this grid" ∧
     (gridStatsEmpty 1 gC9.version).scores = none ∧
     (gridStatsEmpty 1 gC9.version).timing = none ∧
     get_leaderboard dbC9 1 5 = Except.ok [] ∧
     get_score_distribution dbC9 1 3 =
       Except.ok { bins := [], counts := some [], min := none, max := none,
                   mean := none } ∧
     get_completion_time_distribution dbC9 1 3 =
       Except.ok { bins := [], counts := some [], min := none, max := none,
                   mean := none, median := none } ∧
     calculate_temporal_stats dbC9 1 = Except.ok (temporalEmpty 1 gC9.version)) ∧
    isNotFound (calculate_grid_stats dbC9 2) = true :=
  ⟨(c9_notfound_iff_and_empty_minimal dbC9 1 5 3).2.2 gC9
      (by with_unfolding_all rfl) (by with_unfolding_all rfl),
   ((c9_notfound_iff_and_empty_minimal dbC9 2 5 3).1.1).mpr
      (by with_unfolding_all rfl)⟩

/-! ### Claim C10 -/

theorem rollupRowFor_spec (rows : List (Grid × Option Submission)) (gid0 : Nat)
    (row : GridRollupRow) (h : rollupRowFor rows gid0 = some row)
    (hp : 0 < row.totalPlayers) :
    row.gridId = gid0 ∧
    row.totalWords =
      ((((rows.filter (fun r : Grid × Option Submission => r.1.id == gid0)).filterMap
        (fun r : Grid × Option Submission => r.2)).headD default).total_words) := by
  unfold rollupRowFor at h
  split at h
  · cases h
  · rename_i r0 rrest hfil
    split at h
    · rename_i hsubs2
      have hrow := (Option.some.inj h).symm
      subst hrow
      simp at hp
    · rename_i s0 srest hsubs2
      have hrow := (Option.some.inj h).symm
      subst hrow
      refine ⟨rfl, ?_⟩
      rw [hfil, hsubs2]
      rfl

/-- C10: the reported total-words value comes from the first fetched
submission row only — in the grid report it is the `total_words` of the
head of the joined row list, and in every populated rollup row it is the
`total_words` of the first surviving submission of that grid; the values
carried by all other submissions do not influence it. -/
theorem c10_total_words_first_row (db : DB) (gid : Nat) (rep : GridStatsReport)
    (ws : WordsStats) (hok : calculate_grid_stats db gid = Except.ok rep)
    (hws : rep.wordsStats = some ws) :
    ws.totalWords = ((gridRows db gid).headD default).1.total_words ∧
    (∀ sd ed : Option ℤ, ∀ row : GridRollupRow,
      row ∈ (calculate_global_stats db sd ed).gridStats →
      0 < row.totalPlayers →
      row.totalWords =
        ((((globalRows db (sd.map dayStartTs)
            (ed.map (fun d => dayStartTs d + 86400))).filter
              (fun r : Grid × Option Submission => r.1.id == row.gridId)).filterMap
                (fun r : Grid × Option Submission => r.2)).headD default).total_words) := by
  constructor
  · obtain ⟨g, hf, hcase⟩ := grid_stats_ok_inv db gid rep hok
    rcases hcase with ⟨hr, hrep⟩ | ⟨r0, rrest, hr, hrep⟩
    · subst hrep
      simp [gridStatsEmpty] at hws
    · subst hrep
      simp only [gridStatsFull, Option.some.injEq] at hws
      subst hws
      rw [hr]
      rfl
  · intro sd ed row hmem hp
    simp only [calculate_global_stats] at hmem
    have hmem2 := (List.perm_insertionSort rowLE _).mem_iff.mp hmem
    obtain ⟨gid0, hgid0, hrr⟩ := List.mem_filterMap.mp hmem2
    obtain ⟨hgid, htw⟩ := rollupRowFor_spec _ gid0 row hrr hp
    rw [hgid]
    exact htw

/-- C10 witness: with two submissions of grid 1 declaring 5 and 7 total
words, both the grid report and the rollup row report 5 — the first
row's value — ignoring the 7. -/
theorem c10_disagreeing_total_words_witness :
    (wsC10.totalWords = ((gridRows dbC10 1).headD default).1.total_words ∧
     rowC10.totalWords =
       ((((globalRows dbC10 none none).filter
         (fun r : Grid × Option Submission => r.1.id == rowC10.gridId)).filterMap
           (fun r : Grid × Option Submission => r.2)).headD default).total_words) ∧
    wsC10.totalWords = 5 ∧ rowC10.totalWords = 5 ∧
    (dbC10.submissions.map (fun s => s.total_words)) = [5, 7] :=
  ⟨⟨(c10_total_words_first_row dbC10 1 repC10 wsC10 (by with_unfolding_all rfl)
      (by with_unfolding_all rfl)).1,
    (c10_total_words_first_row dbC10 1 repC10 wsC10 (by with_unfolding_all rfl)
      (by with_unfolding_all rfl)).2 none none rowC10
      (by with_unfolding_all decide) (by with_unfolding_all decide)⟩,
   by with_unfolding_all rfl, by with_unfolding_all rfl, by with_unfolding_all rfl⟩

/-! ### Claim C7: histogram lemmas -/

theorem binStart_zero (lo w : ℚ) : binStart lo w 0 = lo := by
  unfold binStart
  simp

theorem binStart_mono (lo w : ℚ) (hw : 0 ≤ w) (i j : Nat) (hij : i ≤ j) :
    binStart lo w i ≤ binStart lo w j := by
  unfold binStart
  have hc : (i : ℚ) ≤ (j : ℚ) := by exact_mod_cast hij
  have := mul_le_mul_of_nonneg_right hc hw
  linarith

theorem binStart_last (lo hi : ℚ) (k : Nat) (hk : k ≠ 0) :
    binStart lo ((hi - lo) / (k : ℚ)) k = hi := by
  unfold binStart
  have hkQ : (k : ℚ) ≠ 0 := Nat.cast_ne_zero.mpr hk
  field_simp

theorem binStart_le_iff (lo w : ℚ) (hw : 0 < w) (i : Nat) (v : ℚ) :
    binStart lo w i ≤ v ↔ (i : ℚ) ≤ (v - lo) / w := by
  unfold binStart
  rw [le_div_iff₀ hw]
  constructor <;> intro <;> linarith

theorem lt_binStart_iff (lo w : ℚ) (hw : 0 < w) (i : Nat) (v : ℚ) :
    v < binStart lo w i ↔ (v - lo) / w < (i : ℚ) := by
  unfold binStart
  rw [div_lt_iff₀ hw]
  constructor <;> intro <;> linarith

theorem inBin_disjoint (lo w : ℚ) (k i j : Nat) (hw : 0 ≤ w) (hij : i < j)
    (hj : j < k) (v : ℚ) (hbi : inBinB lo w k i v = true)
    (hbj : inBinB lo w k j v = true) : False := by
  have hik : ¬ (i + 1 = k) := by omega
  simp only [inBinB, hik, if_false, Bool.and_eq_true, decide_eq_true_eq] at hbi
  have hjin : binStart lo w j ≤ v := by
    simp only [inBinB, Bool.and_eq_true, decide_eq_true_eq] at hbj
    exact hbj.1
  have hmono : binStart lo w (i + 1) ≤ binStart lo w j :=
    binStart_mono lo w hw (i + 1) j (by omega)
  have : v < v := lt_of_lt_of_le hbi.2 (le_trans hmono hjin)
  exact lt_irrefl v this

theorem inBin_exists (lo w : ℚ) (k : Nat) (hw : 0 < w) (hk : 1 ≤ k) (v : ℚ)
    (hlo : lo ≤ v) (hhi : v ≤ binStart lo w k) :
    ∃ i, i < k ∧ inBinB lo w k i v = true := by
  have ht0 : 0 ≤ (v - lo) / w := div_nonneg (sub_nonneg.mpr hlo) (le_of_lt hw)
  have hfl0 : (0 : ℤ) ≤ ⌊(v - lo) / w⌋ := Int.floor_nonneg.mpr ht0
  by_cases hc : k - 1 ≤ (⌊(v - lo) / w⌋).toNat
  · refine ⟨k - 1, by omega, ?_⟩
    have hlast : k - 1 + 1 = k := by omega
    unfold inBinB
    rw [hlast, if_pos rfl]
    simp only [Bool.and_eq_true, decide_eq_true_eq]
    constructor
    · rw [binStart_le_iff lo w hw]
      have h1 : ((k - 1 : Nat) : ℚ) ≤ ((⌊(v - lo) / w⌋ : ℤ) : ℚ) := by
        have h2 : ((k - 1 : Nat) : ℤ) ≤ ⌊(v - lo) / w⌋ := by omega
        exact_mod_cast h2
      exact le_trans h1 (Int.floor_le _)
    · exact hhi
  · refine ⟨(⌊(v - lo) / w⌋).toNat, by omega, ?_⟩
    have hnk : ¬ ((⌊(v - lo) / w⌋).toNat + 1 = k) := by omega
    simp only [inBinB, hnk, if_false, Bool.and_eq_true, decide_eq_true_eq]
    have hcast : (((⌊(v - lo) / w⌋).toNat : Nat) : ℚ) = ((⌊(v - lo) / w⌋ : ℤ) : ℚ) := by
      exact_mod_cast Int.toNat_of_nonneg hfl0
    constructor
    · rw [binStart_le_iff lo w hw]
      calc (((⌊(v - lo) / w⌋).toNat : Nat) : ℚ) = ((⌊(v - lo) / w⌋ : ℤ) : ℚ) := hcast
        _ ≤ (v - lo) / w := Int.floor_le _
    · rw [lt_binStart_iff lo w hw]
      calc (v - lo) / w < ((⌊(v - lo) / w⌋ : ℤ) : ℚ) + 1 := Int.lt_floor_add_one _
        _ = (((⌊(v - lo) / w⌋).toNat : Nat) : ℚ) + 1 := by rw [hcast]
        _ = ((((⌊(v - lo) / w⌋).toNat + 1 : Nat)) : ℚ) := by norm_num

theorem inBin_exists_unique (lo w : ℚ) (k : Nat) (hw : 0 < w) (hk : 1 ≤ k)
    (v : ℚ) (hlo : lo ≤ v) (hhi : v ≤ binStart lo w k) :
    ∃! i, i < k ∧ inBinB lo w k i v = true := by
  obtain ⟨i, hik, hbi⟩ := inBin_exists lo w k hw hk v hlo hhi
  refine ⟨i, ⟨hik, hbi⟩, ?_⟩
  rintro j ⟨hjk, hbj⟩
  rcases lt_trichotomy j i with h | h | h
  · exact absurd (inBin_disjoint lo w k j i (le_of_lt hw) h hik v hbj hbi) id
  · exact h
  · exact absurd (inBin_disjoint lo w k i j (le_of_lt hw) h hjk v hbi hbj) id

theorem list_range_map_sum (f : Nat → Nat) (k : Nat) :
    ((List.range k).map f).sum = ∑ i in Finset.range k, f i := by
  induction k with
  | zero => rfl
  | succ n ih =>
    rw [List.range_succ, List.map_append, List.sum_append, Finset.sum_range_succ, ih]
    simp

theorem sum_range_filter_length (p : Nat → ℚ → Bool) (k : Nat) (vals : List ℚ)
    (h : ∀ v ∈ vals, ∃! i, i < k ∧ p i v = true) :
    ((List.range k).map (fun i => (vals.filter (fun v => p i v)).length)).sum =
      vals.length := by
  induction vals with
  | nil => simp
  | cons x t ih =>
    have hx := h x (List.mem_cons_self x t)
    have ht : ∀ v ∈ t, ∃! i, i < k ∧ p i v = true :=
      fun v hv => h v (List.mem_cons_of_mem x hv)
    have hone : (∑ i in Finset.range k, if p i x = true then 1 else 0) = 1 := by
      rw [Finset.sum_boole]
      have hcard : (Finset.filter (fun i => p i x = true) (Finset.range k)).card = 1 := by
        obtain ⟨i0, ⟨hi0k, hbi0⟩, huniq⟩ := hx
        rw [Finset.card_eq_one]
        refine ⟨i0, Finset.eq_singleton_iff_unique_mem.mpr ⟨?_, ?_⟩⟩
        · exact Finset.mem_filter.mpr ⟨Finset.mem_range.mpr hi0k, hbi0⟩
        · intro j hj
          exact huniq j ⟨Finset.mem_range.mp (Finset.mem_filter.mp hj).1,
            (Finset.mem_filter.mp hj).2⟩
      rw [hcard]
      rfl
    calc ((List.range k).map
          (fun i => (List.filter (fun v => p i v) (x :: t)).length)).sum
        = ∑ i in Finset.range k,
            ((if p i x = true then 1 else 0) + (List.filter (fun v => p i v) t).length) := by
          rw [list_range_map_sum]
          refine Finset.sum_congr rfl (fun i _ => ?_)
          by_cases hpi : p i x = true
          · simp [List.filter_cons, hpi]
            omega
          · simp [List.filter_cons, hpi]
      _ = 1 + t.length := by
          rw [Finset.sum_add_distrib, hone, ← list_range_map_sum, ih ht]
      _ = (x :: t).length := by
          simp [Nat.add_comm]

theorem getD_range_map {α : Type} (f : Nat → α) (k i : Nat) (h : i < k) (d : α) :
    ((List.range k).map f).getD i d = f i := by
  have hlen : i < ((List.range k).map f).length := by simpa using h
  rw [List.getD_eq_getElem _ _ hlen]
  simp

theorem histLoHi_spec (vals : List ℚ) (hne : vals ≠ []) :
    histLo vals < histHi vals ∧
    (∀ v ∈ vals, histLo vals ≤ v ∧ v ≤ histHi vals) := by
  unfold histLo histHi histLoHi
  by_cases heq : qMin vals = qMax vals
  · rw [if_pos heq]
    constructor
    · simp only []
      linarith
    · intro v hv
      have h1 := qMin_le_mem vals v hv
      have h2 := mem_le_qMax vals v hv
      constructor
      · simp only []
        linarith
      · simp only []
        linarith
  · rw [if_neg heq]
    have hle := qMin_le_qMax vals hne
    constructor
    · exact lt_of_le_of_ne hle heq
    · intro v hv
      exact ⟨qMin_le_mem vals v hv, mem_le_qMax vals v hv⟩

theorem histW_pos (vals : List ℚ) (k : Nat) (hne : vals ≠ []) (hk : 1 ≤ k) :
    0 < histW vals k := by
  unfold histW
  have h := (histLoHi_spec vals hne).1
  have hkQ : (0 : ℚ) < (k : ℚ) := by exact_mod_cast hk
  exact div_pos (by linarith) hkQ

/-- C7 (amended): for a nonempty input column and `num_bins = k ≥ 1`, both
distribution reports bin over the equal-width edges
`lo + i * (hi - lo) / k`, where `(lo, hi)` is the observed `[min, max]`
when `min < max` and the widened `[min - 1/2, max + 1/2]` when all values
are equal; every input value falls in exactly one bin (half-open except
the last, which is closed), and the bin counts sum to the number of input
values.  The time report's published edges are the `int(...)` truncations
of those true edges (its counts are still computed against the true
edges). -/
theorem c7_histogram_binning (db : DB) (gid k : Nat) (hk : 1 ≤ k)
    (srep : ScoreDistribution) (trep : TimeDistribution)
    (hs : get_score_distribution db gid k = Except.ok srep)
    (ht : get_completion_time_distribution db gid k = Except.ok trep)
    (hne : subScores db gid ≠ []) :
    (srep.bins.length = k ∧
     (∀ i, i < k → srep.bins.getD i default =
        { start := binStart (histLo (subScores db gid)) (histW (subScores db gid) k) i
          stop := binStart (histLo (subScores db gid)) (histW (subScores db gid) k) (i + 1)
          count := binCount (histLo (subScores db gid)) (histW (subScores db gid) k) k i
            (subScores db gid) }) ∧
     binStart (histLo (subScores db gid)) (histW (subScores db gid) k) 0 =
       histLo (subScores db gid) ∧
     binStart (histLo (subScores db gid)) (histW (subScores db gid) k) k =
       histHi (subScores db gid)) ∧
    ((qMin (subScores db gid) < qMax (subScores db gid) →
        histLo (subScores db gid) = qMin (subScores db gid) ∧
        histHi (subScores db gid) = qMax (subScores db gid)) ∧
     (qMin (subScores db gid) = qMax (subScores db gid) →
        histLo (subScores db gid) = qMin (subScores db gid) - 1/2 ∧
        histHi (subScores db gid) = qMax (subScores db gid) + 1/2)) ∧
    ((∀ v ∈ subScores db gid, ∃! i, i < k ∧
        inBinB (histLo (subScores db gid)) (histW (subScores db gid) k) k i v = true) ∧
     (srep.bins.map BinQ.count).sum = (subScores db gid).length) ∧
    (trep.bins.length = k ∧
     (∀ i, i < k → trep.bins.getD i default =
        { start := pyInt (binStart (histLo (subTimes db gid)) (histW (subTimes db gid) k) i)
          stop := pyInt (binStart (histLo (subTimes db gid)) (histW (subTimes db gid) k) (i + 1))
          count := binCount (histLo (subTimes db gid)) (histW (subTimes db gid) k) k i
            (subTimes db gid) }) ∧
     (∀ v ∈ subTimes db gid, ∃! i, i < k ∧
        inBinB (histLo (subTimes db gid)) (histW (subTimes db gid) k) k i v = true) ∧
     (trep.bins.map BinZ.count).sum = (subTimes db gid).length) := by
  have hfe : db.submissions.filter (fun s => s.grid_id == gid) ≠ [] := by
    intro h0
    apply hne
    unfold subScores
    rw [h0]
    rfl
  have hneT : subTimes db gid ≠ [] := by
    intro h0
    apply hfe
    unfold subTimes at h0
    exact List.map_eq_nil_iff.mp h0
  have hk0 : k ≠ 0 := by omega
  have hsrep : srep = scoreDistFull (subScores db gid) k := by
    unfold get_score_distribution at hs
    split at hs
    · simp at hs
    · simp only [hne, hk0, if_false] at hs
      exact (Except.ok.inj hs).symm
  have htrep : trep = timeDistFull (subTimes db gid) k := by
    unfold get_completion_time_distribution at ht
    split at ht
    · simp at ht
    · simp only [hneT, hk0, if_false] at ht
      exact (Except.ok.inj ht).symm
  subst hsrep
  subst htrep
  have hlastS : binStart (histLo (subScores db gid)) (histW (subScores db gid) k) k =
      histHi (subScores db gid) := by
    show binStart (histLo (subScores db gid))
      ((histHi (subScores db gid) - histLo (subScores db gid)) / (k : ℚ)) k =
      histHi (subScores db gid)
    exact binStart_last _ _ k hk0
  have hlastT : binStart (histLo (subTimes db gid)) (histW (subTimes db gid) k) k =
      histHi (subTimes db gid) := by
    show binStart (histLo (subTimes db gid))
      ((histHi (subTimes db gid) - histLo (subTimes db gid)) / (k : ℚ)) k =
      histHi (subTimes db gid)
    exact binStart_last _ _ k hk0
  have huniqS : ∀ v ∈ subScores db gid, ∃! i, i < k ∧
      inBinB (histLo (subScores db gid)) (histW (subScores db gid) k) k i v = true := by
    intro v hv
    refine inBin_exists_unique _ _ k (histW_pos _ k hne hk) hk v ?_ ?_
    · exact ((histLoHi_spec _ hne).2 v hv).1
    · rw [hlastS]
      exact ((histLoHi_spec _ hne).2 v hv).2
  have huniqT : ∀ v ∈ subTimes db gid, ∃! i, i < k ∧
      inBinB (histLo (subTimes db gid)) (histW (subTimes db gid) k) k i v = true := by
    intro v hv
    refine inBin_exists_unique _ _ k (histW_pos _ k hneT hk) hk v ?_ ?_
    · exact ((histLoHi_spec _ hneT).2 v hv).1
    · rw [hlastT]
      exact ((histLoHi_spec _ hneT).2 v hv).2
  refine ⟨⟨?_, ?_, binStart_zero _ _, hlastS⟩, ⟨?_, ?_⟩, ⟨huniqS, ?_⟩,
    ⟨?_, ?_, huniqT, ?_⟩⟩
  · simp [scoreDistFull]
  · intro i hik
    simp only [scoreDistFull]
    rw [getD_range_map _ k i hik]
    rfl
  · intro hlt
    unfold histLo histHi histLoHi
    rw [if_neg (ne_of_lt hlt)]
    exact ⟨rfl, rfl⟩
  · intro heq
    unfold histLo histHi histLoHi
    rw [if_pos heq]
    exact ⟨rfl, rfl⟩
  · simp only [scoreDistFull, List.map_map]
    exact sum_range_filter_length
      (fun i v => inBinB (histLo (subScores db gid)) (histW (subScores db gid) k) k i v)
      k (subScores db gid) huniqS
  · simp [timeDistFull]
  · intro i hik
    simp only [timeDistFull]
    rw [getD_range_map _ k i hik]
    rfl
  · simp only [timeDistFull, List.map_map]
    exact sum_range_filter_length
      (fun i v => inBinB (histLo (subTimes db gid)) (histW (subTimes db gid) k) k i v)
      k (subTimes db gid) huniqT

/-- C7 counterexample: for the grid whose two scores both equal 5 and
2 bins, the observed min and max are both 5, yet the report's first bin
starts at 4.5 and its last bin stops at 5.5 — the bins do not partition
the observed `[min, max]` range as the claim states (numpy widens a
degenerate range by 0.5 on each side). -/
theorem c7_counterexample_degenerate_range :
    qMin (subScores dbC7 1) = 5 ∧ qMax (subScores dbC7 1) = 5 ∧
    (sdC7.bins.getD 0 default).start = 9/2 ∧
    (sdC7.bins.getD 1 default).stop = 11/2 ∧
    ((9 : ℚ)/2 ≠ 5 ∧ (11 : ℚ)/2 ≠ 5) := by
  with_unfolding_all decide

/-- C7 witness: on the grid with scores 10, 20, 20 (times 100, 50, 80)
and 2 bins, both reports carry 2 bins whose counts sum to the 3 input
values, the score counts being `[1, 2]`. -/
theorem c7_histogram_witness :
    (sdC7w.bins.length = 2 ∧
     (sdC7w.bins.map BinQ.count).sum = (subScores dbC7w 1).length ∧
     (tdC7w.bins.map BinZ.count).sum = (subTimes dbC7w 1).length) ∧
    sdC7w.bins.map BinQ.count = [1, 2] ∧
    (subScores dbC7w 1).length = 3 := by
  have h := c7_histogram_binning dbC7w 1 2 (by norm_num) sdC7w tdC7w
    (by with_unfolding_all rfl) (by with_unfolding_all rfl)
    (by with_unfolding_all decide)
  exact ⟨⟨h.1.1, h.2.2.1.2, h.2.2.2.2.2.2⟩, by with_unfolding_all rfl,
    by with_unfolding_all rfl⟩

end Crosswords
